import Mathlib

/-!
Verification of the mactl command-dispatch and external-tool-invocation
framework.  Definitions are embedded from the Go sources under
`cmd/mactl/root` and `internal/tool/kustomize`; components whose sources
are not in the repository snapshot (Process Runner, brew installer
adapter, env-var module, git config module, dispatcher internals) are
modelled from the specification, as marked on each definition.
-/

namespace Mactl

/-! ## Process Runner -/

/-- The external-tool invocation descriptor: executable name, ordered
argument list, optional working directory. -/
structure ExecutionRequest where
  executable : String
  args : List String
  workdir : Option String := none
deriving Repr, DecidableEq

/-- Outcome of running an `ExecutionRequest`: exit code and captured
output streams. -/
structure ExecutionResult where
  exitCode : Int
  stdout : String
  stderr : String
deriving Repr, DecidableEq

/-- Errors of the Process Runner itself: the executable could not be
located or started, or a configured timeout elapsed. -/
inductive RunError where
  | SpawnError
  | TimeoutError
deriving Repr, DecidableEq

/-- Modelled from the spec: the operating system as seen by the Process
Runner (the runner's implementation is not in the source snapshot).
`locatable` says which executable names resolve on the search path and can
be started; `behavior` gives the completed child's exit code and captured
output for a request whose executable starts. -/
structure SystemEnv where
  locatable : String → Bool
  behavior : ExecutionRequest → ExecutionResult

/-- Modelled from the spec: `run(request) -> Result<ExecutionResult, RunError>`
(the Process Runner's source is not in the snapshot).  Spawns the child and
waits; returns the `ExecutionResult` on completion regardless of exit code;
fails with `SpawnError` exactly when the executable cannot be located or
started. -/
def run (env : SystemEnv) (req : ExecutionRequest) : Except RunError ExecutionResult :=
  if env.locatable req.executable then
    Except.ok (env.behavior req)
  else
    Except.error RunError.SpawnError

/-! ## Installer Adapter -/

/-- Package-manager category of an install target. -/
inductive BrewCategory where
  | formula
  | cask
deriving Repr, DecidableEq

/-- A package name plus its package-manager category. -/
structure InstallTarget where
  name : String
  category : BrewCategory := BrewCategory.formula
deriving Repr, DecidableEq

/-- Outcome variants of `ensureInstalled`. -/
inductive InstallOutcome where
  | AlreadyInstalled
  | Installed
  | InstalledWithWarnings
deriving Repr, DecidableEq

/-- Installer Adapter failures. -/
inductive InstallError where
  | DependencyMissing
  | InstallFailed (detail : String)
deriving Repr, DecidableEq

/-- The query invocation checking whether a package is installed. -/
def queryReq (pkg : String) : ExecutionRequest :=
  { executable := "brew", args := ["list", pkg] }

/-- The install invocation for a package. -/
def installReq (pkg : String) : ExecutionRequest :=
  { executable := "brew", args := ["install", pkg] }

/-- Modelled from the spec: `ensureInstalled(target)` of the Installer
Adapter (`internal/installer/brew` is not in the source snapshot).  First
issues the query invocation; if the target is already installed (query
exits 0) returns `AlreadyInstalled` without any further invocation;
otherwise issues the install invocation and maps its outcome.  A spawn
failure of either invocation means the package manager itself is absent
(`DependencyMissing`).  Returns the result together with the ordered list
of Process Runner invocations issued. -/
def ensureInstalled (env : SystemEnv) (target : InstallTarget) :
    Except InstallError InstallOutcome × List ExecutionRequest :=
  match run env (queryReq target.name) with
  | Except.error _ =>
      (Except.error InstallError.DependencyMissing, [queryReq target.name])
  | Except.ok qres =>
      if qres.exitCode == 0 then
        (Except.ok InstallOutcome.AlreadyInstalled, [queryReq target.name])
      else
        match run env (installReq target.name) with
        | Except.error _ =>
            (Except.error InstallError.DependencyMissing,
             [queryReq target.name, installReq target.name])
        | Except.ok ires =>
            if ires.exitCode == 0 then
              (Except.ok InstallOutcome.Installed,
               [queryReq target.name, installReq target.name])
            else
              (Except.error (InstallError.InstallFailed ires.stderr),
               [queryReq target.name, installReq target.name])

/-- Returns `true` exactly on the `ok` branch of an `Except`. -/
def exceptOk {ε α : Type} : Except ε α → Bool
  | Except.ok _ => true
  | Except.error _ => false

/-! ## kustomize Tool Setup (from `internal/tool/kustomize`) -/

namespace kustomize

/-- From the source: `const BrewPkg = "kustomize"`. -/
def BrewPkg : String := "kustomize"

/-- Result of one `Setup()` invocation together with the packages passed
to the Installer Adapter (`brew.Install`) during it. -/
structure SetupTrace where
  result : Except String Unit
  installCalls : List String
deriving Repr

/-- From the source: `Setup()` logs, calls `brew.Install(BrewPkg)` once,
wraps a failure as "failed to install kustomize", and otherwise returns
nil.  The Installer Adapter is passed in as `install` (its source is not
in the snapshot); the trace records each package it is called on. -/
def Setup (install : String → Except InstallError Unit) : SetupTrace :=
  match install BrewPkg with
  | Except.ok _ => { result := Except.ok (), installCalls := [BrewPkg] }
  | Except.error _ =>
      { result := Except.error "failed to install kustomize", installCalls := [BrewPkg] }

end kustomize

/-! ## Environment Variable module -/

/-- A name/value pair representing a shell environment variable. -/
structure EnvVarEntry where
  name : String
  value : String
deriving Repr, DecidableEq

/-- Environment Variable module failures. -/
inductive EnvVarError where
  | DuplicateKeyError
deriving Repr, DecidableEq

/-- Modelled from the spec: `list()` re-reads the profile file each call
and produces its entries in order (the env-var module's source is not in
the snapshot). -/
def listEntries (file : List EnvVarEntry) : List EnvVarEntry := file

/-- Number of entries of the profile file carrying the given key. -/
def countKey (file : List EnvVarEntry) (key : String) : Nat :=
  (file.filter (fun e => e.name == key)).length

/-- Modelled from the spec: `add(entry, overwrite)` of the Environment
Variable module (its source is not in the snapshot).  Fails with
`DuplicateKeyError` if the key already exists unless the overwrite flag is
given; with the flag it replaces the existing entry; otherwise it appends
the entry.  Returns the new profile file content. -/
def add (file : List EnvVarEntry) (entry : EnvVarEntry) (overwrite : Bool) :
    Except EnvVarError (List EnvVarEntry) :=
  if file.any (fun e => e.name == entry.name) then
    if overwrite then
      Except.ok (file.filter (fun e => e.name != entry.name) ++ [entry])
    else
      Except.error EnvVarError.DuplicateKeyError
  else
    Except.ok (file ++ [entry])

/-! ## Atomic write of the profile file -/

/-- Filesystem state visible to the env-var module: the target profile
file's content and, when present, the temp file's content. -/
structure FsState where
  profile : String
  temp : Option String := none
deriving Repr, DecidableEq

/-- The two steps of the atomic write discipline. -/
inductive WriteStep where
  | writeTemp
  | rename
deriving Repr, DecidableEq

/-- Modelled from the spec: effect of one step of the atomic write (the
env-var module's source is not in the snapshot).  `writeTemp` writes the
new content to the temp file; `rename` atomically moves the temp file over
the profile file. -/
def applyStep (newContent : String) (s : FsState) : WriteStep → FsState
  | WriteStep.writeTemp => { s with temp := some newContent }
  | WriteStep.rename =>
      match s.temp with
      | some c => { profile := c, temp := none }
      | none => s

/-- Run a sequence of write steps from a state. -/
def runSteps (newContent : String) (s : FsState) (steps : List WriteStep) : FsState :=
  steps.foldl (applyStep newContent) s

/-- Modelled from the spec: the full atomic write is the step sequence
"write to temp file, then rename". -/
def atomicWriteSteps : List WriteStep := [WriteStep.writeTemp, WriteStep.rename]

/-! ## Git Config module -/

/-- Scope of a git configuration change. -/
inductive GitScope where
  | localScope
  | globalScope
deriving Repr, DecidableEq

/-- Git Config module failures. -/
inductive GitError where
  | NotARepositoryError
deriving Repr, DecidableEq

/-- Modelled from the spec: whether a git repository root is found upward
from the working directory (the git module's source is not in the
snapshot). -/
structure GitEnv where
  repoRootFound : Bool

/-- The scope flag passed to the git configuration invocation. -/
def scopeFlag : GitScope → String
  | GitScope.localScope => "--local"
  | GitScope.globalScope => "--global"

/-- Modelled from the spec: `setConfig(key, value, scope)` of the Git
Config module (its source is not in the snapshot).  A thin pass-through to
the git configuration invocation; fails with `NotARepositoryError`, with
no invocation issued, when scope is local and no repository root is found
upward from the working directory.  Returns the result together with the
list of Process Runner invocations issued. -/
def setConfig (env : GitEnv) (key value : String) (scope : GitScope) :
    Except GitError Unit × List ExecutionRequest :=
  match scope with
  | GitScope.localScope =>
      if env.repoRootFound then
        (Except.ok (), [{ executable := "git", args := ["config", scopeFlag scope, key, value] }])
      else
        (Except.error GitError.NotARepositoryError, [])
  | GitScope.globalScope =>
      (Except.ok (), [{ executable := "git", args := ["config", scopeFlag scope, key, value] }])

/-! ## Command Registry / Dispatcher -/

/-- A named, invocable unit: name, optional handler identifier (leaf
commands), ordered list of child commands. -/
inductive Command where
  | mk : String → Option String → List Command → Command
deriving Repr

/-- The command's name (cobra `Use`). -/
def Command.name : Command → String
  | Command.mk n _ _ => n

/-- The command's handler identifier, when it is invocable. -/
def Command.handlerId : Command → Option String
  | Command.mk _ h _ => h

/-- The command's ordered list of child commands. -/
def Command.children : Command → List Command
  | Command.mk _ _ c => c

/-- Cobra's `AddCommand`: appends a child to the parent's children. -/
def addCommand : Command → Command → Command
  | Command.mk n h cs, c => Command.mk n h (cs ++ [c])

/-- Applies `addCommand` for several children, in order. -/
def addCommands (p : Command) (cs : List Command) : Command :=
  cs.foldl addCommand p

namespace git

/-- Modelled from the spec: the `git config` leaf command
(`cmd/mactl/root/git` package is not in the snapshot; the CLI surface
gives `tool git config <key> <value>`). -/
def Config : Command := Command.mk "config" (some "git-config") []

/-- Modelled from the spec: the `git ssh` group with its `ensure` leaf
(`cmd/mactl/root/git` package is not in the snapshot; the CLI surface
gives `tool git ssh ensure`). -/
def Ssh : Command :=
  Command.mk "ssh" none [Command.mk "ensure" (some "git-ssh-ensure") []]

end git

namespace optimize

/-- Modelled from the spec: the `optimize dock` leaf command
(`cmd/mactl/root/optimize` package is not in the snapshot; the CLI
surface gives `tool optimize dock <preference>`). -/
def Dock : Command := Command.mk "dock" (some "optimize-dock") []

end optimize

namespace envvar

/-- Modelled from the spec: the `env-var list` leaf command
(`cmd/mactl/root/envvar` package is not in the snapshot; the CLI surface
gives `tool env-var list`). -/
def List : Command := Command.mk "list" (some "env-var-list") []

/-- Modelled from the spec: the `env-var add` leaf command
(`cmd/mactl/root/envvar` package is not in the snapshot; the CLI surface
gives `tool env-var add <NAME> <VALUE>`). -/
def Add : Command := Command.mk "add" (some "env-var-add") []

end envvar

namespace root

/-- From `cmd/mactl/root/git.go`: the `git` group command as declared,
before its `init` runs. -/
def GitBase : Command := Command.mk "git" none []

/-- From `cmd/mactl/root/git.go`: after `init`,
`Git.AddCommand(git.Config, git.Ssh)`. -/
def Git : Command := addCommands GitBase [git.Config, git.Ssh]

/-- From `cmd/mactl/root/optimize.go`: the `optimize` group command as
declared, before its `init` runs. -/
def OptimizeBase : Command := Command.mk "optimize" none []

/-- From `cmd/mactl/root/optimize.go`: after `init`,
`Optimize.AddCommand(optimize.Dock)`. -/
def Optimize : Command := addCommands OptimizeBase [optimize.Dock]

/-- From `cmd/mactl/root/env_var.go`: the `env-var` group command as
declared, before its `init` runs. -/
def EnvVarBase : Command := Command.mk "env-var" none []

/-- From `cmd/mactl/root/env_var.go`: after `init`,
`EnvVar.AddCommand(envvar.List, envvar.Add)`. -/
def EnvVar : Command := addCommands EnvVarBase [envvar.List, envvar.Add]

end root

/-- Modelled from the spec: the assembled root of the command tree (the
root command's source is not in the snapshot; the spec names the groups
`optimize`, `env-var`, `git` and the `setup kustomize` leaf). -/
def mactlRoot : Command :=
  Command.mk "mactl" none
    [root.Optimize, root.EnvVar, root.Git,
     Command.mk "setup" none [Command.mk "kustomize" (some "setup-kustomize") []]]

/-- Outcome of resolving process arguments through the command tree. -/
inductive DispatchResult where
  | invoked (handlerId : String) (args : List String)
  | unknown
deriving Repr, DecidableEq

/-- Modelled from the spec: resolution of the argument vector through the
command tree (the dispatcher's source is not in the snapshot).  At each
step, the first remaining argument selects the child of that name;
remaining arguments reach the resolved command's handler; when no path
resolves, the result is `UnknownCommandError`. -/
def resolve : Command → List String → DispatchResult
  | c, [] =>
      match c.handlerId with
      | some h => DispatchResult.invoked h []
      | none => DispatchResult.unknown
  | c, a :: rest =>
      match c.children.find? (fun ch => ch.name == a) with
      | some ch => resolve ch rest
      | none =>
          match c.handlerId with
          | some h => DispatchResult.invoked h (a :: rest)
          | none => DispatchResult.unknown

/-- What the Dispatcher's top level produces: process exit code and
whether usage was printed. -/
structure DispatchOutcome where
  exitCode : Nat
  printedUsage : Bool
deriving Repr, DecidableEq

/-- Modelled from the spec: the Dispatcher's top-level error/exit-code
handling (its source is not in the snapshot).  An unresolved path is
`UnknownCommandError`: usage is printed and the exit code is 2 (usage
error); a resolved handler that succeeds exits 0 and one that fails exits
1 (generic failure).  `handlerOk` stands for the resolved handler's
success or failure. -/
def dispatch (tree : Command) (args : List String)
    (handlerOk : String → List String → Bool) : DispatchOutcome :=
  match resolve tree args with
  | DispatchResult.unknown => { exitCode := 2, printedUsage := true }
  | DispatchResult.invoked h a =>
      if handlerOk h a then { exitCode := 0, printedUsage := false }
      else { exitCode := 1, printedUsage := false }

/-- Modelled from the spec: the env-var add handler's positional argument
parsing, `{NAME, VALUE}` (the handler's source is not in the snapshot). -/
def parseAddArgs : List String → Option (String × String)
  | [n, v] => some (n, v)
  | _ => none

mutual

/-- Decidable check that every node of a command tree has pairwise
distinct child names. -/
def Command.treeUnique : Command → Bool
  | Command.mk _ _ cs => decide ((cs.map Command.name).Nodup) && treeUniqueList cs

/-- Checks `Command.treeUnique` on every command of a list. -/
def treeUniqueList : List Command → Bool
  | [] => true
  | c :: cs => Command.treeUnique c && treeUniqueList cs

end

/-! ## Helper lemmas -/

/-- A key absent from the profile file's names has no entries. -/
lemma countKey_eq_zero_of_not_mem (file : List EnvVarEntry) (k : String)
    (h : k ∉ file.map EnvVarEntry.name) : countKey file k = 0 := by
  induction file with
  | nil => rfl
  | cons e rest ih =>
      simp only [List.map_cons, List.mem_cons, not_or] at h
      have hne : (e.name == k) = false := by
        simp only [beq_eq_false_iff_ne]
        exact fun hc => h.1 (hc ▸ rfl)
      simp only [countKey, List.filter_cons, hne, Bool.false_eq_true, if_false]
      exact ih h.2

/-- In a profile file with pairwise distinct keys, a present key has
exactly one entry. -/
lemma countKey_eq_one_of_nodup (file : List EnvVarEntry) (k : String)
    (hwf : (file.map EnvVarEntry.name).Nodup)
    (hmem : file.any (fun e => e.name == k) = true) : countKey file k = 1 := by
  induction file with
  | nil => simp at hmem
  | cons e rest ih =>
      simp only [List.map_cons, List.nodup_cons] at hwf
      by_cases hk : e.name = k
      · have hz : countKey rest k = 0 :=
          countKey_eq_zero_of_not_mem rest k (hk ▸ hwf.1)
        simp only [countKey, List.filter_cons, hk, beq_self_eq_true, if_true,
          List.length_cons] at *
        omega
      · have hne : (e.name == k) = false := by
          simp only [beq_eq_false_iff_ne]; exact hk
        simp only [List.any_cons, hne, Bool.false_or] at hmem
        simp only [countKey, List.filter_cons, hne, Bool.false_eq_true, if_false]
        exact ih hwf.2 hmem

/-- Overwriting leaves exactly one entry for the key: all old entries for
it are filtered away and the new entry appended. -/
lemma countKey_overwrite (file : List EnvVarEntry) (entry : EnvVarEntry) :
    countKey (file.filter (fun e => e.name != entry.name) ++ [entry]) entry.name = 1 := by
  unfold countKey
  rw [List.filter_append, List.filter_filter]
  simp

/-! ## Claim theorems -/

/-- C1: For every `InstallTarget`, `ensureInstalled` first performs a
query invocation; if the target is already installed it returns
`AlreadyInstalled` and never issues an install invocation, so calling it
on an already-installed target is a no-op that still succeeds. -/
theorem ensureInstalled_noop_when_installed (env : SystemEnv) (target : InstallTarget)
    (r : ExecutionResult) (hq : run env (queryReq target.name) = Except.ok r)
    (h0 : r.exitCode = 0) :
    ensureInstalled env target =
      (Except.ok InstallOutcome.AlreadyInstalled, [queryReq target.name]) ∧
    installReq target.name ∉ (ensureInstalled env target).2 ∧
    ∀ (env' : SystemEnv) (t' : InstallTarget),
      (ensureInstalled env' t').2.head? = some (queryReq t'.name) := by
  have heq : ensureInstalled env target =
      (Except.ok InstallOutcome.AlreadyInstalled, [queryReq target.name]) := by
    simp [ensureInstalled, hq, h0]
  refine ⟨heq, ?_, ?_⟩
  · rw [heq]
    simp [installReq, queryReq]
  · intro env' t'
    unfold ensureInstalled
    cases hq' : run env' (queryReq t'.name) with
    | error e => rfl
    | ok q =>
        by_cases hz : q.exitCode == 0
        · simp [hz]
        · simp only [hz, Bool.false_eq_true, if_false]
          cases run env' (installReq t'.name) with
          | error e => rfl
          | ok i => by_cases hz' : i.exitCode == 0 <;> simp [hz']

/-- Witness for C1: with brew present and `kustomize` already installed,
`ensureInstalled` returns `AlreadyInstalled` after the single query
invocation. -/
theorem ensureInstalled_noop_when_installed_witness :
    run (SystemEnv.mk (fun s => s == "brew")
          (fun req => if req.args == ["list", "kustomize"] then
              ExecutionResult.mk 0 "kustomize" "" else ExecutionResult.mk 1 "" ""))
        (queryReq "kustomize") = Except.ok (ExecutionResult.mk 0 "kustomize" "") ∧
    (ExecutionResult.mk 0 "kustomize" "").exitCode = 0 ∧
    ensureInstalled
        (SystemEnv.mk (fun s => s == "brew")
          (fun req => if req.args == ["list", "kustomize"] then
              ExecutionResult.mk 0 "kustomize" "" else ExecutionResult.mk 1 "" ""))
        (InstallTarget.mk "kustomize" BrewCategory.formula) =
      (Except.ok InstallOutcome.AlreadyInstalled, [queryReq "kustomize"]) :=
  ⟨rfl, rfl,
    (ensureInstalled_noop_when_installed
      (SystemEnv.mk (fun s => s == "brew")
        (fun req => if req.args == ["list", "kustomize"] then
            ExecutionResult.mk 0 "kustomize" "" else ExecutionResult.mk 1 "" ""))
      (InstallTarget.mk "kustomize" BrewCategory.formula)
      (ExecutionResult.mk 0 "kustomize" "") rfl rfl).1⟩

/-- C2: the kustomize `Setup()` takes no arguments beyond the injected
Installer Adapter, keeps no state, delegates to the adapter with the fixed
target `"kustomize"`, issues exactly one install call per invocation, and
succeeds exactly when that call succeeds. -/
theorem kustomize_Setup_delegates (install : String → Except InstallError Unit) :
    (kustomize.Setup install).installCalls = [kustomize.BrewPkg] ∧
    kustomize.BrewPkg = "kustomize" ∧
    exceptOk (kustomize.Setup install).result = exceptOk (install kustomize.BrewPkg) := by
  unfold kustomize.Setup
  cases install kustomize.BrewPkg <;> simp [exceptOk, kustomize.BrewPkg]

/-- C3: `run` returns an `ExecutionResult` on completion for every request
whose executable can be located and started, regardless of the child's
exit code, and fails with `SpawnError` exactly when the executable cannot
be located or started. -/
theorem run_result_iff_locatable (env : SystemEnv) (req : ExecutionRequest) :
    (env.locatable req.executable = true → run env req = Except.ok (env.behavior req)) ∧
    (env.locatable req.executable = false →
      run env req = Except.error RunError.SpawnError) := by
  constructor <;> intro h <;> simp [run, h]

/-- Witness for C3: a child exiting nonzero still yields an
`ExecutionResult`, and an unlocatable executable yields `SpawnError`. -/
theorem run_result_iff_locatable_witness :
    run (SystemEnv.mk (fun s => s == "git") (fun _ => ExecutionResult.mk 3 "out" "err"))
        (ExecutionRequest.mk "git" ["status"] none) =
      Except.ok (ExecutionResult.mk 3 "out" "err") ∧
    run (SystemEnv.mk (fun s => s == "git") (fun _ => ExecutionResult.mk 3 "out" "err"))
        (ExecutionRequest.mk "nope" [] none) =
      Except.error RunError.SpawnError :=
  ⟨(run_result_iff_locatable _ _).1 (by decide),
   (run_result_iff_locatable _ _).2 (by decide)⟩

/-- C4: for a key already present in the profile file, `add` fails with
`DuplicateKeyError` without the overwrite flag and succeeds with it
(replacing the old entry); after either path the listing has exactly one
entry for that key. -/
theorem envvar_add_duplicate_key (file : List EnvVarEntry) (entry : EnvVarEntry)
    (hwf : (file.map EnvVarEntry.name).Nodup)
    (hdup : file.any (fun e => e.name == entry.name) = true) :
    add file entry false = Except.error EnvVarError.DuplicateKeyError ∧
    add file entry true =
      Except.ok (file.filter (fun e => e.name != entry.name) ++ [entry]) ∧
    countKey (listEntries (file.filter (fun e => e.name != entry.name) ++ [entry]))
      entry.name = 1 ∧
    countKey (listEntries file) entry.name = 1 := by
  refine ⟨?_, ?_, ?_, ?_⟩
  · simp [add, hdup]
  · simp [add, hdup]
  · exact countKey_overwrite file entry
  · exact countKey_eq_one_of_nodup file entry.name hwf hdup

/-- Witness for C4: with `FOO` present once, `add` of a new `FOO` fails
without the overwrite flag, succeeds with it, and either way the listing
has exactly one `FOO` entry. -/
theorem envvar_add_duplicate_key_witness :
    ([EnvVarEntry.mk "FOO" "old", EnvVarEntry.mk "BAR" "x"].map
      EnvVarEntry.name).Nodup ∧
    [EnvVarEntry.mk "FOO" "old", EnvVarEntry.mk "BAR" "x"].any
      (fun e => e.name == "FOO") = true ∧
    add [EnvVarEntry.mk "FOO" "old", EnvVarEntry.mk "BAR" "x"]
      (EnvVarEntry.mk "FOO" "bar") false = Except.error EnvVarError.DuplicateKeyError ∧
    countKey (listEntries [EnvVarEntry.mk "FOO" "old", EnvVarEntry.mk "BAR" "x"])
      "FOO" = 1 :=
  ⟨by decide, by decide,
   (envvar_add_duplicate_key _ (EnvVarEntry.mk "FOO" "bar") (by decide) (by decide)).1,
   (envvar_add_duplicate_key _ (EnvVarEntry.mk "FOO" "bar") (by decide) (by decide)).2.2.2⟩

/-- C5: the atomic write is "write temp, then rename"; any invocation
interrupted before the rename step leaves the original profile file
content intact, while the completed sequence installs the new content. -/
theorem atomic_write_profile_intact (s : FsState) (newContent : String)
    (steps : List WriteStep) (h : WriteStep.rename ∉ steps) :
    (runSteps newContent s steps).profile = s.profile ∧
    runSteps newContent s atomicWriteSteps =
      FsState.mk newContent none := by
  constructor
  · induction steps generalizing s with
    | nil => rfl
    | cons st rest ih =>
        simp only [List.mem_cons, not_or] at h
        cases st with
        | rename => exact absurd rfl h.1
        | writeTemp =>
            simp only [runSteps, List.foldl_cons]
            exact ih _ h.2
  · rfl

/-- Witness for C5: interrupting after only the temp-file write leaves
the profile unchanged. -/
theorem atomic_write_profile_intact_witness :
    WriteStep.rename ∉ [WriteStep.writeTemp] ∧
    (runSteps "export FOO=bar" (FsState.mk "export FOO=old" none)
        [WriteStep.writeTemp]).profile = "export FOO=old" :=
  ⟨by decide,
   (atomic_write_profile_intact (FsState.mk "export FOO=old" none) "export FOO=bar"
      [WriteStep.writeTemp] (by decide)).1⟩

/-- C6: `setConfig` with local scope and no repository root found upward
fails with `NotARepositoryError` and issues no Process Runner
invocation. -/
theorem setConfig_local_outside_repo (env : GitEnv) (key value : String)
    (h : env.repoRootFound = false) :
    setConfig env key value GitScope.localScope =
      (Except.error GitError.NotARepositoryError, []) := by
  simp [setConfig, h]

/-- Witness for C6: a concrete `setConfig` call outside any repository. -/
theorem setConfig_local_outside_repo_witness :
    (GitEnv.mk false).repoRootFound = false ∧
    setConfig (GitEnv.mk false) "user.name" "dev" GitScope.localScope =
      (Except.error GitError.NotARepositoryError, []) :=
  ⟨rfl, setConfig_local_outside_repo (GitEnv.mk false) "user.name" "dev" rfl⟩

/-- C7: the Dispatcher routes `env-var add FOO bar` to the env-var add
handler with parsed arguments NAME = "FOO", VALUE = "bar"; the list and
add commands are registered as children of the `env-var` parent. -/
theorem dispatch_envvar_add_routing :
    resolve mactlRoot ["env-var", "add", "FOO", "bar"] =
      DispatchResult.invoked "env-var-add" ["FOO", "bar"] ∧
    parseAddArgs ["FOO", "bar"] = some ("FOO", "bar") ∧
    root.EnvVar.children = [envvar.List, envvar.Add] :=
  ⟨by decide, rfl, rfl⟩

/-- C8: an argument vector that resolves no path through the command tree
yields `UnknownCommandError`, prints usage, and exits with code 2; a
resolved handler exits 0 on success and 1 on generic failure. -/
theorem dispatch_exit_codes (args : List String)
    (handlerOk : String → List String → Bool) :
    (resolve mactlRoot args = DispatchResult.unknown →
      dispatch mactlRoot args handlerOk = DispatchOutcome.mk 2 true) ∧
    (∀ h a, resolve mactlRoot args = DispatchResult.invoked h a →
      handlerOk h a = true →
      dispatch mactlRoot args handlerOk = DispatchOutcome.mk 0 false) ∧
    (∀ h a, resolve mactlRoot args = DispatchResult.invoked h a →
      handlerOk h a = false →
      dispatch mactlRoot args handlerOk = DispatchOutcome.mk 1 false) := by
  refine ⟨?_, ?_, ?_⟩ <;> intros <;> simp [dispatch, *]

/-- Witness for C8: `mactl bogus` is unknown and exits 2 with usage
printed; `mactl env-var list` with a succeeding handler exits 0 and with a
failing handler exits 1. -/
theorem dispatch_exit_codes_witness :
    resolve mactlRoot ["bogus"] = DispatchResult.unknown ∧
    dispatch mactlRoot ["bogus"] (fun _ _ => true) = DispatchOutcome.mk 2 true ∧
    dispatch mactlRoot ["env-var", "list"] (fun _ _ => true) =
      DispatchOutcome.mk 0 false ∧
    dispatch mactlRoot ["env-var", "list"] (fun _ _ => false) =
      DispatchOutcome.mk 1 false :=
  ⟨by decide,
   (dispatch_exit_codes ["bogus"] (fun _ _ => true)).1 (by decide),
   (dispatch_exit_codes ["env-var", "list"] (fun _ _ => true)).2.1
     "env-var-list" [] (by decide) rfl,
   (dispatch_exit_codes ["env-var", "list"] (fun _ _ => false)).2.2
     "env-var-list" [] (by decide) rfl⟩

/-- C9: the command tree assembled at process start (the `init` calls of
the root package) has the registered children exactly, and command names
are unique within each parent's children throughout the tree; the tree is
a fixed value, never modified after assembly. -/
theorem command_tree_unique_and_fixed :
    root.Git = addCommands root.GitBase [git.Config, git.Ssh] ∧
    root.Git.children = [git.Config, git.Ssh] ∧
    root.Optimize.children = [optimize.Dock] ∧
    mactlRoot.treeUnique = true :=
  ⟨rfl, rfl, rfl, by decide⟩

end Mactl
